import Mathlib

/-!
Shallow embedding of the multi-agent orchestration system's resilience core
(`core/rate_limiting.py`, `core/error_recovery.py`, `core/master_orchestrator.py`)
with verified statements about its rate limiter, concurrency manager, retry
strategy, circuit breaker and orchestrator helper functions.

Timestamps are modelled as integers (`ℤ`, seconds); delays use `ℚ`.
Fallible Python code is modelled with `Except`/`Option`; mutation is modelled
by explicit state passing.
-/

namespace RateLimiting

/-- Rate limit configurations (calls per minute), from `RateLimiter.__init__`:
`{"openrouter": 20, "groq": 30, "google": 60}`. -/
def rateLimits : List (String × Nat) :=
  [("openrouter", 20), ("groq", 30), ("google", 60)]

/-- `self.rate_limits.get(provider, {}).get("calls_per_minute", 60)` -/
def lookupLimit (provider : String) : Nat :=
  match rateLimits.lookup provider with
  | some n => n
  | none => 60

/-- Mutable state of a `RateLimiter`: the per-provider request history
(`self.request_history`), an association list from provider name to the list
of request timestamps. -/
structure RLState where
  history : List (String × List Int)
deriving Repr, DecidableEq

/-- `self.request_history = {"openrouter": [], "groq": [], "google": []}` -/
def initRLState : RLState := ⟨[("openrouter", []), ("groq", []), ("google", [])]⟩

/-- Replace the entry for key `k` in an association list (Python dict item
assignment `d[k] = v` for a key already present; no-op insertion otherwise is
irrelevant because the code only assigns to existing keys). -/
def assocSet (k : String) (v : List Int) : List (String × List Int) → List (String × List Int)
  | [] => []
  | (k', v') :: rest => if k' = k then (k, v) :: rest else (k', v') :: assocSet k v rest

/-- `RateLimiter.check_rate_limit(provider)` at time `now`.
Returns the boolean result and the state after pruning: entries with
`req_time > now - 60` (i.e. `now - req_time < 60`) are kept; the call returns
`False` iff the pruned history has at least `calls_per_minute` entries.
An unknown provider short-circuits to `True` without touching state. -/
def check_rate_limit (now : Int) (st : RLState) (provider : String) : Bool × RLState :=
  match st.history.lookup provider with
  | none => (true, st)
  | some times =>
      let kept := times.filter (fun t => now - t < 60)
      let st' : RLState := ⟨assocSet provider kept st.history⟩
      if kept.length ≥ lookupLimit provider then (false, st') else (true, st')

/-- `RateLimiter.log_request(provider)` at time `now`:
`self.request_history[provider].append(datetime.now())`.
Appending to a missing key raises `KeyError`, modelled as `Except.error`. -/
def log_request (now : Int) (st : RLState) (provider : String) : Except String RLState :=
  match st.history.lookup provider with
  | none => .error "KeyError"
  | some times => .ok ⟨assocSet provider (times ++ [now]) st.history⟩

/-- One admission attempt as the spec's scenarios use it: check the rate
limit and record the request only when admitted. -/
def admitOnce (now : Int) (st : RLState) (provider : String) : Bool × RLState :=
  let (ok, st') := check_rate_limit now st provider
  if ok then
    match log_request now st' provider with
    | .ok st'' => (true, st'')
    | .error _ => (true, st')
  else (false, st')

/-- Run a sequence of admission attempts at the given times, returning the
list of boolean outcomes and the final state. -/
def admitAll (provider : String) : List Int → RLState → List Bool × RLState
  | [], st => ([], st)
  | t :: ts, st =>
      let (b, st') := admitOnce t st provider
      let (bs, st'') := admitAll provider ts st'
      (b :: bs, st'')

/-- Observable steps performed by `ConcurrencyManager.execute`, in the order
the code performs them. -/
inductive CMEvent where
  | waitAdmitted   -- `await rate_limiter.wait_if_needed(provider)`
  | acquirePermit  -- entering `async with self.semaphore`
  | runWork        -- `result = await coro`
  | logRequest     -- `rate_limiter.log_request(provider)`
  | releasePermit  -- leaving the `async with` block / `finally`
deriving Repr, DecidableEq

/-- Trace of `ConcurrencyManager.execute(coro, provider, rate_limiter)` for a
work item whose outcome is `workResult`: the code first awaits
`rate_limiter.wait_if_needed(provider)`, then acquires the semaphore, runs the
coroutine, logs the request only on success, and releases the permit on every
exit path (the `finally` block and the `async with` exit). -/
def executeTrace (workResult : Except String Nat) : List CMEvent × Except String Nat :=
  match workResult with
  | .ok a => ([.waitAdmitted, .acquirePermit, .runWork, .logRequest, .releasePermit], .ok a)
  | .error e => ([.waitAdmitted, .acquirePermit, .runWork, .releasePermit], .error e)

end RateLimiting

namespace ErrorRecovery

/-- `RetryStrategy` configuration (`core/error_recovery.py`). -/
structure RetryStrategy where
  max_retries : Nat := 3
  base_delay : ℚ := 1
  max_delay : ℚ := 60
  exponential_base : ℚ := 2

/-- `RetryStrategy.calculate_delay(attempt)`:
`delay = base_delay * exponential_base ** attempt`,
`jitter = random.uniform(0, 0.1 * delay)`,
`return min(delay + jitter, max_delay)`.
The random jitter is passed in explicitly; theorems quantify over every
jitter in the interval the code draws from. -/
def RetryStrategy.calculate_delay (s : RetryStrategy) (attempt : Nat) (jitter : ℚ) : ℚ :=
  let delay := s.base_delay * s.exponential_base ^ attempt
  min (delay + jitter) s.max_delay

/-- The interval `random.uniform(0, 0.1 * delay)` draws the jitter from. -/
def RetryStrategy.jitterInRange (s : RetryStrategy) (attempt : Nat) (jitter : ℚ) : Prop :=
  0 ≤ jitter ∧ jitter ≤ (1 / 10) * (s.base_delay * s.exponential_base ^ attempt)

/-- `RetryStrategy.execute_with_retry`: the loop body over the outcomes of the
successive attempts (`attempts.length` plays the role of the remaining
iterations of `for attempt in range(self.max_retries)`), threading the
`last_error` variable. A successful attempt returns its result immediately;
once the loop is exhausted the code executes `raise last_error`
(`.error none` is the `raise None` that happens when `max_retries = 0`). -/
def execute_with_retry_from {E A : Type} :
    List (Except E A) → Option E → Except (Option E) A
  | [], lastError => .error lastError
  | o :: rest, lastError =>
      match o with
      | .ok a => .ok a
      | .error e =>
          let _ := lastError
          execute_with_retry_from rest (some e)

/-- `RetryStrategy.execute_with_retry` entered with `last_error = None` on a
run whose attempt outcomes are `attempts` (one per loop iteration,
`attempts.length = max_retries`). -/
def execute_with_retry {E A : Type} (attempts : List (Except E A)) : Except (Option E) A :=
  execute_with_retry_from attempts none

/-- `self.state` of a `CircuitBreaker`: `"CLOSED"`, `"OPEN"` or `"HALF_OPEN"`. -/
inductive CBState where
  | closed
  | «open»
  | halfOpen
deriving Repr, DecidableEq

/-- A `CircuitBreaker` instance (`core/error_recovery.py`): configuration plus
mutable fields `failure_count`, `last_failure_time`, `state`. -/
structure CircuitBreaker where
  failure_threshold : Nat := 5
  timeout : Int := 60
  failure_count : Nat := 0
  last_failure_time : Option Int := none
  state : CBState := .closed
deriving Repr, DecidableEq

/-- `CircuitBreaker.__init__(failure_threshold, timeout)`. -/
def CircuitBreaker.init (failure_threshold : Nat) (timeout : Int) : CircuitBreaker :=
  { failure_threshold := failure_threshold, timeout := timeout }

/-- `CircuitBreaker._should_attempt_reset()` at time `now`:
true when `last_failure_time` is unset or
`(now - last_failure_time).total_seconds() >= timeout`. -/
def CircuitBreaker.should_attempt_reset (cb : CircuitBreaker) (now : Int) : Bool :=
  match cb.last_failure_time with
  | none => true
  | some t => now - t ≥ cb.timeout

/-- Result of a protected call: the value, the original exception re-raised
(`raise e`), or the rejection
`Exception("Circuit breaker is OPEN - API temporarily unavailable")` raised
without invoking the underlying coroutine. -/
inductive CBResult (E A : Type) where
  | ok (a : A)
  | raised (e : E)
  | rejectedOpen
deriving Repr, DecidableEq

/-- The `try`/`except` body of `CircuitBreaker.call`, entered once the
`OPEN`-state gate has been passed; `outcome` is what awaiting the underlying
coroutine produces. A success in `HALF_OPEN` closes the breaker and resets
`failure_count`; any failure increments `failure_count`, stamps
`last_failure_time`, and opens the breaker once
`failure_count >= failure_threshold`, re-raising the original exception. -/
def CircuitBreaker.callBody {E A : Type} (cb : CircuitBreaker) (now : Int)
    (outcome : Except E A) : CBResult E A × CircuitBreaker :=
  match outcome with
  | .ok a =>
      if cb.state = .halfOpen then
        (.ok a, { cb with state := .closed, failure_count := 0 })
      else
        (.ok a, cb)
  | .error e =>
      let cb' := { cb with
        failure_count := cb.failure_count + 1,
        last_failure_time := some now }
      if cb'.failure_count ≥ cb'.failure_threshold then
        (.raised e, { cb' with state := .«open» })
      else
        (.raised e, cb')

/-- `CircuitBreaker.call(coro_func, ...)` at time `now`: the `OPEN`-state gate
followed by `callBody`. -/
def CircuitBreaker.call {E A : Type} (cb : CircuitBreaker) (now : Int)
    (outcome : Except E A) : CBResult E A × CircuitBreaker :=
  match cb.state with
  | .«open» =>
      if cb.should_attempt_reset now then
        CircuitBreaker.callBody { cb with state := .halfOpen } now outcome
      else
        (.rejectedOpen, cb)
  | _ => CircuitBreaker.callBody cb now outcome

/-- States reachable from `CircuitBreaker.init` by any sequence of calls. -/
inductive CircuitBreaker.Reachable {E A : Type} : CircuitBreaker → Prop where
  | init (f : Nat) (t : Int) : CircuitBreaker.Reachable (CircuitBreaker.init f t)
  | step {cb : CircuitBreaker} (now : Int) (outcome : Except E A) :
      CircuitBreaker.Reachable cb →
      CircuitBreaker.Reachable (CircuitBreaker.call cb now outcome).2

end ErrorRecovery

namespace Orchestrator

/-- Python's `needle in haystack` substring test. -/
def strContains (needle haystack : String) : Bool :=
  decide (needle.toList <:+: haystack.toList)

/-- Python's `str.lower()` (ASCII view, matching the keyword table),
character by character over the string's underlying character list. -/
def lowerStr (s : String) : String := String.mk (s.data.map Char.toLower)

/-- The `complexity_indicators` dict of
`MasterOrchestrator._assess_project_complexity`, in insertion order. -/
def complexityIndicators : List (String × List String) :=
  [("simple", ["basic", "simple", "crud", "hello world"]),
   ("medium", ["authentication", "api", "database", "responsive"]),
   ("complex", ["microservices", "scalable", "enterprise", "real-time"]),
   ("advanced", ["ai", "blockchain", "machine learning", "distributed", "iot"])]

/-- `combined_text = f"{desc_lower} {req_text}"` where
`desc_lower = description.lower()` and
`req_text = " ".join(custom_reqs).lower() if custom_reqs else ""`. -/
def combinedText (description : String) (customReqs : List String) : String :=
  let descLower := lowerStr description
  let reqText := if customReqs.isEmpty then "" else lowerStr (String.intercalate " " customReqs)
  descLower ++ " " ++ reqText

/-- `any(indicator in combined_text for indicator in indicators)`. -/
def tierMatches (indicators : List String) (text : String) : Bool :=
  indicators.any (fun ind => strContains ind text)

/-- `MasterOrchestrator._assess_project_complexity(description, custom_reqs)`:
lower-case the description, lower-case the space-joined custom requirements
(empty string when the list is empty), concatenate with a space, then return
the first tier (in dict order) one of whose indicator keywords occurs as a
substring of the combined text, defaulting to `"medium"`. -/
def assess_project_complexity (description : String) (customReqs : List String) : String :=
  let combined := combinedText description customReqs
  match complexityIndicators.find? (fun p => tierMatches p.2 combined) with
  | some p => p.1
  | none => "medium"

/-- One entry of `workspace.rglob("*")`: its final `name`, its `suffix`
(empty when there is none) and whether it is a direct child of the workspace
root (used for the `(workspace / "README.md").exists()` probe). -/
structure FSEntry where
  name : String
  suffix : String
  atTopLevel : Bool
deriving Repr, DecidableEq

/-- `f.suffix in ['.py', '.js', '.ts', '.jsx', '.tsx', '.java', '.cpp', '.sol']`
(`_validate_and_finalize`, the `code_files` filter). -/
def codeSuffixes : List String := [".py", ".js", ".ts", ".jsx", ".tsx", ".java", ".cpp", ".sol"]

/-- `f.suffix in ['.md', '.txt', '.rst']` (`doc_files` filter). -/
def docSuffixes : List String := [".md", ".txt", ".rst"]

/-- `MasterOrchestrator._calculate_quality_score(workspace, code_files,
doc_files)`: base 50; +20 when `code_files` is nonempty; +15 when `doc_files`
is nonempty; +10 when the top-level `README.md` exists; +5 when any file in
the tree is named `requirements.txt` or `package.json`; result
`min(score, 100)`. `files` is the recursive listing used for the two
filesystem probes. -/
def calculate_quality_score (files code_files doc_files : List FSEntry) : Nat :=
  let score := 50
  let score := score + (if code_files.length > 0 then 20 else 0)
  let score := score + (if doc_files.length > 0 then 15 else 0)
  let score := score + (if files.any (fun f => f.atTopLevel && f.name == "README.md") then 10 else 0)
  let score := score +
    (if files.any (fun f => f.name == "requirements.txt" || f.name == "package.json") then 5 else 0)
  min score 100

/-- The quality score as `_validate_and_finalize` computes it: classify the
recursive listing into `code_files` and `doc_files` by suffix, then score. -/
def qualityScoreOfListing (files : List FSEntry) : Nat :=
  let code_files := files.filter (fun f => codeSuffixes.contains f.suffix)
  let doc_files := files.filter (fun f => docSuffixes.contains f.suffix)
  calculate_quality_score files code_files doc_files

/-- Filesystem state for the workspace-setup phase: the set of existing
directories and a path-keyed store of file contents. -/
structure FileSystem where
  dirs : List String
  files : List (String × String)
deriving Repr, DecidableEq

/-- `Path.mkdir(parents=True, exist_ok=exist_ok)` for an already-materialised
parent chain: raises `FileExistsError` only when the directory exists and
`exist_ok` is false. -/
def mkdir (exist_ok : Bool) (fs : FileSystem) (d : String) : Except String FileSystem :=
  if fs.dirs.contains d then
    if exist_ok then .ok fs else .error "FileExistsError"
  else .ok { fs with dirs := fs.dirs ++ [d] }

/-- The `for directory in directories: directory.mkdir(parents=True,
exist_ok=True)` loop. -/
def mkdirAll (fs : FileSystem) : List String → Except String FileSystem
  | [] => .ok fs
  | d :: ds =>
      match mkdir true fs d with
      | .ok fs' => mkdirAll fs' ds
      | .error e => .error e

/-- `open(path, 'w')` followed by a full dump: truncates and replaces any
previous content at `path`. -/
def writeFile (fs : FileSystem) (path content : String) : FileSystem :=
  { fs with files := (path, content) :: fs.files.filter (fun pc => pc.1 ≠ path) }

/-- The fixed `directories` list of `_setup_project_workspace`. -/
def workspaceDirs (workspacePath : String) : List String :=
  [workspacePath,
   workspacePath ++ "/src",
   workspacePath ++ "/docs",
   workspacePath ++ "/tests",
   workspacePath ++ "/config",
   workspacePath ++ "/scripts",
   workspacePath ++ "/assets",
   workspacePath ++ "/.orchestrator"]

/-- `MasterOrchestrator._setup_project_workspace(project_id, project_plan)`:
create the fixed directory structure with `exist_ok=True`, then write
`project_metadata.json` (whose serialised content, which includes the
creation timestamp, is abstracted as `metadataContent`), returning the new
filesystem and the workspace path. -/
def setup_project_workspace (workspaceBase projectId metadataContent : String)
    (fs : FileSystem) : Except String (FileSystem × String) :=
  let workspacePath := workspaceBase ++ "/" ++ projectId
  match mkdirAll fs (workspaceDirs workspacePath) with
  | .error e => .error e
  | .ok fs' =>
      let metadataFile := workspacePath ++ "/.orchestrator/project_metadata.json"
      .ok (writeFile fs' metadataFile metadataContent, workspacePath)

/-- `ErrorSeverity` from `core/error_recovery.py`. -/
inductive ErrorSeverity where
  | low
  | medium
  | high
  | critical
deriving Repr, DecidableEq

/-- An `ErrorRecord` as `ErrorHandler.log_error` would produce (severity,
context, message). -/
structure ErrorRecord where
  severity : ErrorSeverity
  context : String
  message : String
deriving Repr, DecidableEq

/-- The `execution_stats` counters of `MasterOrchestrator`. -/
structure ExecStats where
  successful_projects : Nat := 0
  failed_projects : Nat := 0
deriving Repr, DecidableEq

/-- `MasterOrchestrator._handle_project_error(error, project_id,
execution_time)`: builds and returns the structured failure dict — it does
not call any `ErrorHandler` and records nothing. -/
structure FailureResult where
  success : Bool
  project_id : String
  error : String
  recovery_actions : List String
  partial_workspace : String
deriving Repr, DecidableEq

/-- The dict literal returned by `_handle_project_error`. -/
def handle_project_error (workspaceBase : String) (errorMsg projectId : String) : FailureResult :=
  { success := false,
    project_id := projectId,
    error := errorMsg,
    recovery_actions := ["Check API keys", "Verify network connection", "Review error logs"],
    partial_workspace := workspaceBase ++ "/" ++ projectId }

/-- Outcome of `MasterOrchestrator.create_project`. -/
inductive CPResult where
  | success (project_id workspace_path : String)
  | failure (f : FailureResult)
deriving Repr, DecidableEq

/-- The six sequential phases of the `try` block: the first raising phase
aborts the rest (`runPhases` returns its exception message). -/
def runPhases : List (Except String Unit) → Except String Unit
  | [] => .ok ()
  | p :: ps =>
      match p with
      | .ok _ => runPhases ps
      | .error e => .error e

/-- `MasterOrchestrator.create_project(project_requirements)` with the phase
outcomes made explicit (`phases` lists what awaiting each phase produces, in
order, `workspacePath` what phase 2 returned). The `except Exception`
branch increments `failed_projects` and returns
`_handle_project_error`'s structured dict; the orchestrator instantiates no
`ErrorHandler`, so the list of recorded `ErrorRecord`s is empty on every
path. -/
def create_project (workspaceBase projectId workspacePath : String)
    (phases : List (Except String Unit)) (stats : ExecStats) :
    CPResult × ExecStats × List ErrorRecord :=
  match runPhases phases with
  | .ok _ =>
      (.success projectId workspacePath,
       { stats with successful_projects := stats.successful_projects + 1 }, [])
  | .error e =>
      (.failure (handle_project_error workspaceBase e projectId),
       { stats with failed_projects := stats.failed_projects + 1 }, [])

end Orchestrator

namespace Orchestrator

/-- **C5.** Complexity classification is a deterministic keyword match over
the lower-cased concatenation of description and custom requirements,
evaluated in the fixed priority order simple → medium → complex → advanced;
the first tier containing a matching keyword wins and no match defaults to
`"medium"`. Concretely, `"basic crud api"` with no custom requirements
classifies as `"simple"`: the simple tier matches (its keyword `"crud"`
occurs in the combined text) even though the medium tier's `"api"` also
occurs. -/
theorem assess_complexity_priority_and_crud :
    (∀ d rs,
      (tierMatches ["basic", "simple", "crud", "hello world"] (combinedText d rs) = true →
          assess_project_complexity d rs = "simple") ∧
      (tierMatches ["basic", "simple", "crud", "hello world"] (combinedText d rs) = false →
       tierMatches ["authentication", "api", "database", "responsive"] (combinedText d rs) = true →
          assess_project_complexity d rs = "medium") ∧
      (tierMatches ["basic", "simple", "crud", "hello world"] (combinedText d rs) = false →
       tierMatches ["authentication", "api", "database", "responsive"] (combinedText d rs) = false →
       tierMatches ["microservices", "scalable", "enterprise", "real-time"] (combinedText d rs) = true →
          assess_project_complexity d rs = "complex") ∧
      (tierMatches ["basic", "simple", "crud", "hello world"] (combinedText d rs) = false →
       tierMatches ["authentication", "api", "database", "responsive"] (combinedText d rs) = false →
       tierMatches ["microservices", "scalable", "enterprise", "real-time"] (combinedText d rs) = false →
       tierMatches ["ai", "blockchain", "machine learning", "distributed", "iot"] (combinedText d rs) = true →
          assess_project_complexity d rs = "advanced") ∧
      (tierMatches ["basic", "simple", "crud", "hello world"] (combinedText d rs) = false →
       tierMatches ["authentication", "api", "database", "responsive"] (combinedText d rs) = false →
       tierMatches ["microservices", "scalable", "enterprise", "real-time"] (combinedText d rs) = false →
       tierMatches ["ai", "blockchain", "machine learning", "distributed", "iot"] (combinedText d rs) = false →
          assess_project_complexity d rs = "medium"))
    ∧ assess_project_complexity "basic crud api" [] = "simple"
    ∧ strContains "crud" (combinedText "basic crud api" []) = true
    ∧ strContains "api" (combinedText "basic crud api" []) = true := by
  refine ⟨fun d rs => ⟨?_, ?_, ?_, ?_, ?_⟩, by decide, by decide, by decide⟩ <;>
    intros <;>
    simp [assess_project_complexity, complexityIndicators, List.find?, *]

/-- Witness for the priority clauses of the C5 theorem at concrete inputs. -/
theorem assess_complexity_priority_and_crud_witness :
    assess_project_complexity "hello world app" [] = "simple" ∧
    assess_project_complexity "with authentication" [] = "medium" ∧
    assess_project_complexity "enterprise system" [] = "complex" ∧
    assess_project_complexity "iot fleet" [] = "advanced" ∧
    assess_project_complexity "xyz" [] = "medium" :=
  ⟨(assess_complexity_priority_and_crud.1 "hello world app" []).1 (by decide),
   (assess_complexity_priority_and_crud.1 "with authentication" []).2.1 (by decide) (by decide),
   (assess_complexity_priority_and_crud.1 "enterprise system" []).2.2.1
     (by decide) (by decide) (by decide),
   (assess_complexity_priority_and_crud.1 "iot fleet" []).2.2.2.1
     (by decide) (by decide) (by decide) (by decide),
   (assess_complexity_priority_and_crud.1 "xyz" []).2.2.2.2
     (by decide) (by decide) (by decide) (by decide)⟩

/-- **C8.** The quality score is deterministic and additive: base 50, +20 if
some file has a code suffix, +15 if some file has a documentation suffix,
+10 if a top-level README.md exists, +5 if some file is named
requirements.txt or package.json, capped at 100 (and always between 50 and
100). -/
theorem quality_score_additive (files : List FSEntry) :
    qualityScoreOfListing files =
      min (50 + (if ∃ f ∈ files, f.suffix ∈ codeSuffixes then 20 else 0)
              + (if ∃ f ∈ files, f.suffix ∈ docSuffixes then 15 else 0)
              + (if ∃ f ∈ files, f.atTopLevel = true ∧ f.name = "README.md" then 10 else 0)
              + (if ∃ f ∈ files, f.name = "requirements.txt" ∨ f.name = "package.json" then 5 else 0))
          100
    ∧ 50 ≤ qualityScoreOfListing files ∧ qualityScoreOfListing files ≤ 100 := by
  have h1 : (0 < (files.filter (fun f => codeSuffixes.contains f.suffix)).length) ↔
      ∃ f ∈ files, f.suffix ∈ codeSuffixes := by
    simp [List.length_pos, List.filter_eq_nil_iff]
  have h2 : (0 < (files.filter (fun f => docSuffixes.contains f.suffix)).length) ↔
      ∃ f ∈ files, f.suffix ∈ docSuffixes := by
    simp [List.length_pos, List.filter_eq_nil_iff]
  have h3 : (files.any (fun f => f.atTopLevel && f.name == "README.md") = true) ↔
      ∃ f ∈ files, f.atTopLevel = true ∧ f.name = "README.md" := by
    simp [List.any_eq_true]
  have h4 : (files.any (fun f => f.name == "requirements.txt" || f.name == "package.json") = true) ↔
      ∃ f ∈ files, f.name = "requirements.txt" ∨ f.name = "package.json" := by
    simp [List.any_eq_true]
  have heq : qualityScoreOfListing files =
      min (50 + (if ∃ f ∈ files, f.suffix ∈ codeSuffixes then 20 else 0)
              + (if ∃ f ∈ files, f.suffix ∈ docSuffixes then 15 else 0)
              + (if ∃ f ∈ files, f.atTopLevel = true ∧ f.name = "README.md" then 10 else 0)
              + (if ∃ f ∈ files, f.name = "requirements.txt" ∨ f.name = "package.json" then 5 else 0))
          100 := by
    unfold qualityScoreOfListing calculate_quality_score
    simp only [gt_iff_lt, h1, h2, h3, h4]
  refine ⟨heq, ?_, ?_⟩
  · rw [heq]
    exact le_min (by omega) (by omega)
  · rw [heq]
    exact min_le_right _ _

end Orchestrator

namespace RateLimiting

/-- **C6, counterexample.** The claim states that `ConcurrencyManager.execute`
first acquires a permit and then awaits the rate-limiter admission; on the
concrete successful run the very first step of the trace is the rate-limiter
wait, not the permit acquisition. -/
theorem execute_order_counterexample :
    (executeTrace (.ok 0)).1.head? = some CMEvent.waitAdmitted ∧
    (executeTrace (.ok 0)).1.head? ≠ some CMEvent.acquirePermit := by
  decide

/-- **C6, amended.** For every work outcome, `ConcurrencyManager.execute`
first awaits `rate_limiter.wait_if_needed(provider)`, then acquires one of
the `max_concurrent` permits, then runs the work; the request is logged via
the rate limiter exactly when the work succeeds; the permit is released as
the last step on every exit path; and the work's outcome is returned
(re-raised) unchanged. -/
theorem execute_order_amended (r : Except String Nat) :
    (executeTrace r).2 = r ∧
    (executeTrace r).1.take 3 = [CMEvent.waitAdmitted, CMEvent.acquirePermit, CMEvent.runWork] ∧
    (executeTrace r).1.getLast? = some CMEvent.releasePermit ∧
    (CMEvent.logRequest ∈ (executeTrace r).1 ↔ ∃ a, r = .ok a) := by
  cases r <;> simp [executeTrace]

end RateLimiting

namespace ErrorRecovery

/-- All elements of the list are `.error`. -/
def allErrors {E A : Type} (attempts : List (Except E A)) : Prop :=
  ∀ o ∈ attempts, ∃ e, o = Except.error e

theorem execute_with_retry_from_all_errors {E A : Type} :
    ∀ (attempts : List (Except E A)) (le : Option E) (e : E),
      allErrors attempts → attempts.getLast? = some (Except.error e) →
      execute_with_retry_from attempts le = .error (some e)
  | [], _, _, _, hlast => by simp at hlast
  | o :: rest, le, e, hall, hlast => by
      obtain ⟨e', he'⟩ := hall o (List.mem_cons_self o rest)
      subst he'
      cases rest with
      | nil =>
          simp only [List.getLast?_singleton, Option.some_inj] at hlast
          cases hlast
          rfl
      | cons o' rest' =>
          have hlast' : (o' :: rest').getLast? = some (Except.error e) := by
            rwa [List.getLast?_cons_cons] at hlast
          have hall' : allErrors (o' :: rest') := fun x hx => hall x (List.mem_cons_of_mem _ hx)
          show execute_with_retry_from (o' :: rest') (some e') = .error (some e)
          exact execute_with_retry_from_all_errors (o' :: rest') (some e') e hall' hlast'

theorem execute_with_retry_from_first_success {E A : Type} :
    ∀ (pre : List (Except E A)) (le : Option E) (a : A) (suf : List (Except E A)),
      allErrors pre →
      execute_with_retry_from (pre ++ Except.ok a :: suf) le = .ok a
  | [], _, _, _, _ => rfl
  | o :: pre', le, a, suf, hall => by
      obtain ⟨e', he'⟩ := hall o (List.mem_cons_self o pre')
      subst he'
      have hall' : allErrors pre' := fun x hx => hall x (List.mem_cons_of_mem _ hx)
      show execute_with_retry_from (pre' ++ Except.ok a :: suf) (some e') = .ok a
      exact execute_with_retry_from_first_success pre' (some e') a suf hall'

/-- **C4.** `RetryStrategy.execute_with_retry` with at least one attempt:
if every attempt raises, the error finally raised is exactly the exception
of the last attempt (unwrapped, same value); if some attempt succeeds before
that, its result is returned and the outcomes of all later attempts are
irrelevant (they are never made). -/
theorem retry_returns_last_error_or_first_success {E A : Type} :
    (∀ (attempts : List (Except E A)) (e : E),
      allErrors attempts → attempts.getLast? = some (Except.error e) →
      execute_with_retry attempts = .error (some e)) ∧
    (∀ (pre suf : List (Except E A)) (a : A),
      allErrors pre →
      execute_with_retry (pre ++ Except.ok a :: suf) = .ok a) :=
  ⟨fun attempts e hall hlast => execute_with_retry_from_all_errors attempts none e hall hlast,
   fun pre suf a hall => execute_with_retry_from_first_success pre none a suf hall⟩

/-- Witness for C4 at concrete inputs: three failing attempts raise the third
attempt's error; an attempt list failing once then succeeding returns the
success and ignores the remaining attempt. -/
theorem retry_returns_last_error_or_first_success_witness :
    execute_with_retry [Except.error "e1", Except.error "e2", Except.error "e3"] =
      (Except.error (some "e3") : Except (Option String) Nat) ∧
    execute_with_retry ([Except.error "e1"] ++ Except.ok 7 :: [Except.error "e2"]) =
      (Except.ok 7 : Except (Option String) Nat) :=
  ⟨(retry_returns_last_error_or_first_success (E := String) (A := Nat)).1
      [Except.error "e1", Except.error "e2", Except.error "e3"] "e3"
      (by intro o ho; fin_cases ho <;> exact ⟨_, rfl⟩) rfl,
   (retry_returns_last_error_or_first_success (E := String) (A := Nat)).2
      [Except.error "e1"] [Except.error "e2"] 7
      (by intro o ho; fin_cases ho; exact ⟨_, rfl⟩)⟩

end ErrorRecovery

namespace Orchestrator

theorem runPhases_first_error :
    ∀ (pre rest : List (Except String Unit)) (e : String),
      (∀ p ∈ pre, p = Except.ok ()) →
      runPhases (pre ++ Except.error e :: rest) = .error e
  | [], _, _, _ => rfl
  | p :: pre', rest, e, hall => by
      have hp := hall p (List.mem_cons_self p pre')
      subst hp
      show runPhases (pre' ++ Except.error e :: rest) = .error e
      exact runPhases_first_error pre' rest e (fun x hx => hall x (List.mem_cons_of_mem _ hx))

/-- **C7, counterexample.** The claim asserts that an exception inside a
phase makes the orchestrator record an `ErrorRecord` with severity Critical
and a phase-identifying context. On a concrete run whose first phase raises,
the list of recorded `ErrorRecord`s is empty — `create_project`'s `except`
branch only builds the failure dict via `_handle_project_error` and never
invokes any `ErrorHandler`. -/
theorem create_project_no_error_record_counterexample :
    (create_project "workspace" "api_service_1700000000" "workspace/api_service_1700000000"
        [Except.error "boom"] {}).2.2 = ([] : List ErrorRecord) ∧
    ¬ ∃ r ∈ (create_project "workspace" "api_service_1700000000" "workspace/api_service_1700000000"
        [Except.error "boom"] {}).2.2, r.severity = ErrorSeverity.critical := by
  refine ⟨rfl, ?_⟩
  rintro ⟨r, hr, -⟩
  simp [create_project, runPhases] at hr

/-- **C7, amended.** If any phase of `create_project` raises, the raw
exception is not propagated: the call returns the structured failure dict
with `success = False`, the error message, the project id, the fixed
recovery-action list and the partial-workspace path
`{workspace_base}/{project_id}`, and increments the `failed_projects`
counter; no `ErrorRecord` is recorded on any path. -/
theorem create_project_failure_amended
    (base pid wpath : String) (pre rest : List (Except String Unit)) (e : String)
    (stats : ExecStats)
    (hpre : ∀ p ∈ pre, p = Except.ok ()) :
    create_project base pid wpath (pre ++ Except.error e :: rest) stats =
      (CPResult.failure
        { success := false, project_id := pid, error := e,
          recovery_actions := ["Check API keys", "Verify network connection", "Review error logs"],
          partial_workspace := base ++ "/" ++ pid },
       { stats with failed_projects := stats.failed_projects + 1 }, []) := by
  unfold create_project
  rw [runPhases_first_error pre rest e hpre]
  rfl

/-- Witness for the amended C7 theorem: one successful phase followed by a
raising phase produces exactly the structured failure result. -/
theorem create_project_failure_amended_witness :
    create_project "workspace" "web_app_1" "workspace/web_app_1"
        ([Except.ok ()] ++ Except.error "API timeout" :: [Except.ok ()]) {} =
      (CPResult.failure
        { success := false, project_id := "web_app_1", error := "API timeout",
          recovery_actions := ["Check API keys", "Verify network connection", "Review error logs"],
          partial_workspace := "workspace" ++ "/" ++ "web_app_1" },
       { failed_projects := 1 }, []) :=
  create_project_failure_amended "workspace" "web_app_1" "workspace/web_app_1"
    [Except.ok ()] [Except.ok ()] "API timeout" {}
    (by intro p hp; fin_cases hp; rfl)

end Orchestrator

namespace RateLimiting

/-- States of the rate limiter reachable from construction by any sequence of
`check_rate_limit` and (successful) `log_request` calls. -/
inductive ReachableRL : RLState → Prop where
  | init : ReachableRL initRLState
  | check (now : Int) (provider : String) {st : RLState} :
      ReachableRL st → ReachableRL (check_rate_limit now st provider).2
  | log (now : Int) (provider : String) {st st' : RLState} :
      ReachableRL st → log_request now st provider = .ok st' → ReachableRL st'

theorem assocSet_keys (k : String) (v : List Int) :
    ∀ l : List (String × List Int), (assocSet k v l).map Prod.fst = l.map Prod.fst
  | [] => rfl
  | (k', v') :: rest => by
      by_cases h : k' = k <;> simp [assocSet, h, assocSet_keys k v rest]

theorem lookup_eq_none_of_not_mem_keys {p : String} :
    ∀ {l : List (String × List Int)}, p ∉ l.map Prod.fst → l.lookup p = none
  | [], _ => rfl
  | (k, v) :: rest, h => by
      rw [List.map_cons, List.mem_cons, not_or] at h
      have hk : p ≠ k := h.1
      have hrest : p ∉ rest.map Prod.fst := h.2
      simp [List.lookup, beq_false_of_ne hk, lookup_eq_none_of_not_mem_keys hrest]

theorem check_rate_limit_keys (now : Int) (st : RLState) (provider : String) :
    (check_rate_limit now st provider).2.history.map Prod.fst = st.history.map Prod.fst := by
  unfold check_rate_limit
  cases h : st.history.lookup provider with
  | none => simp
  | some times =>
      simp only
      split <;> simp [assocSet_keys]

theorem log_request_keys {now : Int} {st st' : RLState} {provider : String}
    (h : log_request now st provider = .ok st') :
    st'.history.map Prod.fst = st.history.map Prod.fst := by
  unfold log_request at h
  cases hl : st.history.lookup provider with
  | none => rw [hl] at h; exact absurd h (by simp)
  | some times =>
      rw [hl] at h
      cases h
      exact assocSet_keys _ _ _

theorem reachable_keys {st : RLState} (h : ReachableRL st) :
    st.history.map Prod.fst = ["openrouter", "groq", "google"] := by
  induction h with
  | init => rfl
  | check now provider _ ih => rw [check_rate_limit_keys]; exact ih
  | log now provider _ hlog ih => rw [log_request_keys hlog]; exact ih

/-- **C10.** For every provider other than the three pre-configured ones
(`openrouter`, `groq`, `google`), and every reachable rate-limiter state —
no matter how many requests have been checked or logged — `check_rate_limit`
returns `True` and leaves the state untouched: unknown providers are never
throttled. -/
theorem unknown_provider_never_throttled
    (provider : String) (st : RLState) (now : Int)
    (hreach : ReachableRL st)
    (hunknown : provider ∉ ["openrouter", "groq", "google"]) :
    check_rate_limit now st provider = (true, st) := by
  have hnone : st.history.lookup provider = none :=
    lookup_eq_none_of_not_mem_keys (by rw [reachable_keys hreach]; exact hunknown)
  simp [check_rate_limit, hnone]

/-- Witness for C10: after a logged request for `openrouter`, checking the
unknown provider `"anthropic"` still returns `True` and leaves the state
unchanged. -/
theorem unknown_provider_never_throttled_witness :
    check_rate_limit 5 ⟨[("openrouter", [0]), ("groq", []), ("google", [])]⟩ "anthropic" =
      (true, ⟨[("openrouter", [0]), ("groq", []), ("google", [])]⟩) :=
  unknown_provider_never_throttled "anthropic"
    ⟨[("openrouter", [0]), ("groq", []), ("google", [])]⟩ 5
    (ReachableRL.log 0 "openrouter" ReachableRL.init rfl)
    (by decide)

end RateLimiting

namespace RateLimiting

/-- **C2.** Sliding-window admission: when a provider's configured limit is
`N` and exactly `N` requests are recorded, with `t0` the oldest of them,
`check_rate_limit` at time `now` returns `False` as long as `t0` is still
inside the trailing 60-second window and `True` once `t0` has aged out.
Concretely, 25 admission attempts for `openrouter` (limit 20) within one
second are admitted 20 times and refused on attempts 21–25, and a further
attempt 61 seconds later is admitted again. -/
theorem sliding_window_rate_limit
    (provider : String) (N : Nat) (ts : List Int) (st : RLState) (t0 now : Int)
    (hlim : rateLimits.lookup provider = some N)
    (hhist : st.history.lookup provider = some ts)
    (hlen : ts.length = N)
    (ht0 : t0 ∈ ts)
    (hmin : ∀ t ∈ ts, t0 ≤ t) :
    ((now - t0 < 60 → (check_rate_limit now st provider).1 = false) ∧
     (60 ≤ now - t0 → (check_rate_limit now st provider).1 = true)) ∧
    (admitAll "openrouter" (List.replicate 25 0) initRLState).1 =
      List.replicate 20 true ++ List.replicate 5 false ∧
    (admitOnce 61 (admitAll "openrouter" (List.replicate 25 0) initRLState).2 "openrouter").1 =
      true := by
  have hLim : lookupLimit provider = N := by simp [lookupLimit, hlim]
  refine ⟨⟨?_, ?_⟩, by decide, by decide⟩
  · intro hwin
    have hall : ts.filter (fun t => decide (now - t < 60)) = ts :=
      List.filter_eq_self.mpr (fun t ht => by
        have := hmin t ht
        simp only [decide_eq_true_eq]
        omega)
    simp only [check_rate_limit, hhist]
    rw [hall, hLim, hlen]
    simp
  · intro hout
    have hlt : (ts.filter (fun t => decide (now - t < 60))).length < ts.length :=
      List.length_filter_lt_length_iff_exists.mpr
        ⟨t0, ht0, by simp only [decide_eq_true_eq]; omega⟩
    rw [hlen] at hlt
    have hnot : ¬ ((ts.filter (fun t => decide (now - t < 60))).length ≥ lookupLimit provider) := by
      rw [hLim]; omega
    simp only [check_rate_limit, hhist]
    rw [if_neg hnot]

/-- Witness for C2 at concrete inputs: with 20 requests logged at time 0 for
`openrouter`, a check at time 30 is refused and a check at time 60 is
admitted. -/
theorem sliding_window_rate_limit_witness :
    (check_rate_limit 30
      ⟨[("openrouter", List.replicate 20 0), ("groq", []), ("google", [])]⟩
      "openrouter").1 = false ∧
    (check_rate_limit 60
      ⟨[("openrouter", List.replicate 20 0), ("groq", []), ("google", [])]⟩
      "openrouter").1 = true :=
  ⟨((sliding_window_rate_limit "openrouter" 20 (List.replicate 20 0)
      ⟨[("openrouter", List.replicate 20 0), ("groq", []), ("google", [])]⟩ 0 30
      rfl rfl (by decide) (by decide) (by decide)).1).1 (by decide),
   ((sliding_window_rate_limit "openrouter" 20 (List.replicate 20 0)
      ⟨[("openrouter", List.replicate 20 0), ("groq", []), ("google", [])]⟩ 0 60
      rfl rfl (by decide) (by decide) (by decide)).1).2 (by decide)⟩

end RateLimiting

namespace ErrorRecovery

/-- **C3.** For any configuration with `base_delay > 0`,
`exponential_base ≥ 2`, `max_delay > 0`, and any attempt `n` and any jitter
the code can draw, the computed delay equals
`min(base_delay * exponential_base^n + jitter, max_delay)` for a jitter in
`[0, 0.1 * base_delay * exponential_base^n]`, never exceeds `max_delay`, and
the delay of attempt `n+1` is at least the delay of attempt `n` whatever
jitters both draw. -/
theorem retry_delay_bounded_monotone
    (s : RetryStrategy) (hb : 0 < s.base_delay) (heb : 2 ≤ s.exponential_base)
    (_hM : 0 < s.max_delay) (n : Nat) (j : ℚ) (hj : s.jitterInRange n j) :
    (∃ j', s.jitterInRange n j' ∧
      s.calculate_delay n j =
        min (s.base_delay * s.exponential_base ^ n + j') s.max_delay) ∧
    s.calculate_delay n j ≤ s.max_delay ∧
    (∀ j2 : ℚ, s.jitterInRange (n + 1) j2 →
      s.calculate_delay n j ≤ s.calculate_delay (n + 1) j2) := by
  have hd : 0 < s.base_delay * s.exponential_base ^ n :=
    mul_pos hb (pow_pos (lt_of_lt_of_le (by norm_num) heb) n)
  refine ⟨⟨j, hj, rfl⟩, min_le_right _ _, ?_⟩
  intro j2 hj2
  simp only [RetryStrategy.calculate_delay]
  apply min_le_min _ le_rfl
  obtain ⟨-, hju⟩ := hj
  obtain ⟨hj2l, -⟩ := hj2
  have h3 : 2 * (s.base_delay * s.exponential_base ^ n) ≤
      s.exponential_base * (s.base_delay * s.exponential_base ^ n) :=
    mul_le_mul_of_nonneg_right heb hd.le
  have h4 : s.exponential_base * (s.base_delay * s.exponential_base ^ n) =
      s.base_delay * s.exponential_base ^ (n + 1) := by ring
  unfold RetryStrategy.jitterInRange at *
  linarith

/-- Witness for C3 at the default configuration (base 1, exponent 2,
cap 60), attempts 0 and 1 with zero jitter. -/
theorem retry_delay_bounded_monotone_witness :
    RetryStrategy.jitterInRange {} 0 0 ∧
    ({} : RetryStrategy).calculate_delay 0 0 ≤ ({} : RetryStrategy).max_delay ∧
    ({} : RetryStrategy).calculate_delay 0 0 ≤ ({} : RetryStrategy).calculate_delay 1 0 := by
  have hjr : RetryStrategy.jitterInRange {} 0 0 := by
    constructor <;> norm_num [RetryStrategy.jitterInRange]
  have hjr1 : RetryStrategy.jitterInRange {} 1 0 := by
    constructor <;> norm_num [RetryStrategy.jitterInRange]
  have h := retry_delay_bounded_monotone {} (by norm_num) (by norm_num) (by norm_num) 0 0 hjr
  exact ⟨hjr, h.2.1, h.2.2 0 hjr1⟩

end ErrorRecovery

namespace Orchestrator

theorem mkdirAll_spec : ∀ (ds : List String) (fs : FileSystem),
    ∃ fs', mkdirAll fs ds = .ok fs' ∧ fs'.files = fs.files ∧
      (∀ x, x ∈ fs'.dirs ↔ x ∈ fs.dirs ∨ x ∈ ds) ∧
      (fs.dirs.Nodup → fs'.dirs.Nodup)
  | [], fs => ⟨fs, rfl, rfl, by simp, id⟩
  | d :: ds, fs => by
      by_cases h : d ∈ fs.dirs
      · have hmk : mkdir true fs d = .ok fs := by simp [mkdir, h]
        obtain ⟨fs', h1, h2, h3, h4⟩ := mkdirAll_spec ds fs
        refine ⟨fs', by simp [mkdirAll, hmk, h1], h2, ?_, h4⟩
        intro x
        rw [h3 x, List.mem_cons]
        constructor
        · rintro (hx | hx)
          · exact Or.inl hx
          · exact Or.inr (Or.inr hx)
        · rintro (hx | hx | hx)
          · exact Or.inl hx
          · exact Or.inl (hx ▸ h)
          · exact Or.inr hx
      · have hmk : mkdir true fs d = .ok ⟨fs.dirs ++ [d], fs.files⟩ := by
          simp [mkdir, h]
        obtain ⟨fs', h1, h2, h3, h4⟩ := mkdirAll_spec ds ⟨fs.dirs ++ [d], fs.files⟩
        refine ⟨fs', by simp [mkdirAll, hmk, h1], h2, ?_, ?_⟩
        · intro x
          rw [h3 x]
          simp only [List.mem_append, List.mem_singleton, List.mem_cons]
          tauto
        · intro hnd
          exact h4 (by simp [List.nodup_append, hnd, h])
  termination_by ds => ds.length

theorem mkdirAll_noop : ∀ (ds : List String) (fs : FileSystem),
    (∀ d ∈ ds, d ∈ fs.dirs) → mkdirAll fs ds = .ok fs
  | [], _, _ => rfl
  | d :: ds, fs, h => by
      have hd : d ∈ fs.dirs := h d (List.mem_cons_self d ds)
      have hmk : mkdir true fs d = .ok fs := by simp [mkdir, hd]
      simp [mkdirAll, hmk,
        mkdirAll_noop ds fs (fun x hx => h x (List.mem_cons_of_mem _ hx))]

theorem writeFile_filter_key (fs : FileSystem) (p c : String) :
    (writeFile fs p c).files.filter (fun pc => pc.1 = p) = [(p, c)] := by
  have haux : ∀ l : List (String × String),
      (l.filter (fun pc => pc.1 ≠ p)).filter (fun pc => pc.1 = p) = [] := by
    intro l
    induction l with
    | nil => rfl
    | cons hd tl ih => by_cases h : hd.1 = p <;> simp [List.filter, h, ih]
  simp [writeFile, List.filter, haux]

/-- **C9.** Re-running workspace setup for the same workspace path is
idempotent: both runs succeed (no failure from already-existing
directories, thanks to `exist_ok=True`), the second run creates no new and
no duplicate directories, and the persisted project metadata remains a
single, freshly overwritten entry. -/
theorem workspace_setup_idempotent
    (base pid md1 md2 : String) (fs : FileSystem) (hnd : fs.dirs.Nodup) :
    ∃ fs1 fs2,
      setup_project_workspace base pid md1 fs = .ok (fs1, base ++ "/" ++ pid) ∧
      setup_project_workspace base pid md2 fs1 = .ok (fs2, base ++ "/" ++ pid) ∧
      fs2.dirs = fs1.dirs ∧
      fs1.dirs.Nodup ∧
      (∀ d ∈ workspaceDirs (base ++ "/" ++ pid), d ∈ fs1.dirs) ∧
      fs2.files.filter
          (fun pc => pc.1 = base ++ "/" ++ pid ++ "/.orchestrator/project_metadata.json") =
        [(base ++ "/" ++ pid ++ "/.orchestrator/project_metadata.json", md2)] := by
  obtain ⟨fsA, hA, hAfiles, hAmem, hAnodup⟩ :=
    mkdirAll_spec (workspaceDirs (base ++ "/" ++ pid)) fs
  have hdirs1 : (writeFile fsA (base ++ "/" ++ pid ++ "/.orchestrator/project_metadata.json")
      md1).dirs = fsA.dirs := rfl
  have hnoop : mkdirAll
      (writeFile fsA (base ++ "/" ++ pid ++ "/.orchestrator/project_metadata.json") md1)
      (workspaceDirs (base ++ "/" ++ pid)) =
      .ok (writeFile fsA (base ++ "/" ++ pid ++ "/.orchestrator/project_metadata.json") md1) :=
    mkdirAll_noop _ _ (fun d hd => by rw [hdirs1]; exact (hAmem d).mpr (Or.inr hd))
  refine ⟨writeFile fsA (base ++ "/" ++ pid ++ "/.orchestrator/project_metadata.json") md1,
    writeFile (writeFile fsA (base ++ "/" ++ pid ++ "/.orchestrator/project_metadata.json") md1)
      (base ++ "/" ++ pid ++ "/.orchestrator/project_metadata.json") md2,
    ?_, ?_, rfl, hAnodup hnd, fun d hd => (hAmem d).mpr (Or.inr hd), ?_⟩
  · simp only [setup_project_workspace, hA]
  · simp only [setup_project_workspace, hnoop]
  · exact writeFile_filter_key _ _ _

/-- Witness for C9 on the empty filesystem: after the first and second setup
of project `p1` under base `workspace`, the directory set is the fixed
eight-directory structure and the metadata file holds the second run's
content. -/
theorem workspace_setup_idempotent_witness :
    ∃ fs1 fs2,
      setup_project_workspace "workspace" "p1" "meta-v1" ⟨[], []⟩ =
        .ok (fs1, "workspace" ++ "/" ++ "p1") ∧
      setup_project_workspace "workspace" "p1" "meta-v2" fs1 =
        .ok (fs2, "workspace" ++ "/" ++ "p1") ∧
      fs2.dirs = fs1.dirs ∧
      fs1.dirs.Nodup ∧
      (∀ d ∈ workspaceDirs ("workspace" ++ "/" ++ "p1"), d ∈ fs1.dirs) ∧
      fs2.files.filter
          (fun pc => pc.1 = "workspace" ++ "/" ++ "p1" ++ "/.orchestrator/project_metadata.json") =
        [("workspace" ++ "/" ++ "p1" ++ "/.orchestrator/project_metadata.json", "meta-v2")] :=
  workspace_setup_idempotent "workspace" "p1" "meta-v1" "meta-v2" ⟨[], []⟩ List.nodup_nil

end Orchestrator

namespace ErrorRecovery

theorem cb_reachable_invariant {E A : Type} {cb : CircuitBreaker}
    (h : CircuitBreaker.Reachable (E := E) (A := A) cb) :
    cb.state ≠ CBState.closed →
      cb.failure_threshold ≤ cb.failure_count ∧ cb.last_failure_time ≠ none := by
  induction h with
  | init f t => intro hs; exact absurd rfl hs
  | step now outcome hr ih =>
      rename_i cb
      obtain ⟨F, T, c, lft, st⟩ := cb
      intro hs
      cases st with
      | closed =>
          cases outcome with
          | ok a =>
              simp [CircuitBreaker.call, CircuitBreaker.callBody] at hs
          | error e =>
              simp only [CircuitBreaker.call, CircuitBreaker.callBody] at hs ⊢
              split_ifs at hs ⊢ with hge
              · exact ⟨by simpa using hge, by simp⟩
              · simp at hs
      | «open» =>
          simp only [CircuitBreaker.call] at hs ⊢
          by_cases hreset : CircuitBreaker.should_attempt_reset
              ⟨F, T, c, lft, CBState.open⟩ now
          · rw [if_pos hreset] at hs ⊢
            cases outcome with
            | ok a => simp [CircuitBreaker.callBody] at hs
            | error e =>
                simp only [CircuitBreaker.callBody] at hs ⊢
                split_ifs at hs ⊢ with hge
                · exact ⟨by simpa using hge, by simp⟩
                · refine ⟨?_, by simp⟩
                  have := (ih (by simp)).1
                  simp only at this ⊢
                  omega
          · rw [if_neg hreset] at hs ⊢
            exact ih (by simp)
      | halfOpen =>
          cases outcome with
          | ok a => simp [CircuitBreaker.call, CircuitBreaker.callBody] at hs
          | error e =>
              simp only [CircuitBreaker.call, CircuitBreaker.callBody] at hs ⊢
              split_ifs at hs ⊢ with hge
              · exact ⟨by simpa using hge, by simp⟩
              · refine ⟨?_, by simp⟩
                have := (ih (by simp)).1
                simp only at this ⊢
                omega

/-- **C1.** The circuit-breaker state machine: (i) every reachable
non-Closed state carries at least `failure_threshold` failures and a
failure timestamp; (ii) a success in Closed changes nothing; (iii) a
failure in Closed increments `failure_count`, stamps the failure time,
re-raises the original error, and moves to Open exactly when the new count
reaches the threshold; (iv) in Open before `timeout` seconds have elapsed
since the last failure, every call — whatever its outcome would have been —
is rejected without the underlying operation being consulted and the state
is untouched; (v) in Open at or after `timeout` seconds a successful trial
closes the breaker and resets the count to 0; (vi) a failing trial re-opens
it; (vii)/(viii) the same two facts stated directly on the trial body
entered in the HalfOpen state. -/
theorem circuit_breaker_transitions {E A : Type} :
    (∀ cb : CircuitBreaker, CircuitBreaker.Reachable (E := E) (A := A) cb →
       cb.state ≠ CBState.closed →
       cb.failure_threshold ≤ cb.failure_count ∧ cb.last_failure_time ≠ none) ∧
    (∀ (cb : CircuitBreaker) (now : Int) (a : A), cb.state = CBState.closed →
       CircuitBreaker.call (E := E) cb now (.ok a) = (.ok a, cb)) ∧
    (∀ (cb : CircuitBreaker) (now : Int) (e : E), cb.state = CBState.closed →
       (CircuitBreaker.call (A := A) cb now (.error e)).1 = .raised e ∧
       (CircuitBreaker.call (A := A) cb now (.error e)).2.failure_count = cb.failure_count + 1 ∧
       (CircuitBreaker.call (A := A) cb now (.error e)).2.last_failure_time = some now ∧
       ((CircuitBreaker.call (A := A) cb now (.error e)).2.state = CBState.open ↔
         cb.failure_threshold ≤ cb.failure_count + 1) ∧
       ((CircuitBreaker.call (A := A) cb now (.error e)).2.state = CBState.closed ↔
         ¬ cb.failure_threshold ≤ cb.failure_count + 1)) ∧
    (∀ (cb : CircuitBreaker) (now tf : Int) (outcome : Except E A),
       cb.state = CBState.open → cb.last_failure_time = some tf → now - tf < cb.timeout →
       CircuitBreaker.call cb now outcome = (.rejectedOpen, cb)) ∧
    (∀ (cb : CircuitBreaker) (now tf : Int) (a : A),
       cb.state = CBState.open → cb.last_failure_time = some tf → cb.timeout ≤ now - tf →
       CircuitBreaker.call (E := E) cb now (.ok a) =
         (.ok a, { cb with state := CBState.closed, failure_count := 0 })) ∧
    (∀ (cb : CircuitBreaker) (now tf : Int) (e : E),
       cb.state = CBState.open → cb.last_failure_time = some tf → cb.timeout ≤ now - tf →
       cb.failure_threshold ≤ cb.failure_count →
       (CircuitBreaker.call (A := A) cb now (.error e)).1 = .raised e ∧
       (CircuitBreaker.call (A := A) cb now (.error e)).2.state = CBState.open) ∧
    (∀ (cb : CircuitBreaker) (now : Int) (a : A), cb.state = CBState.halfOpen →
       CircuitBreaker.callBody (E := E) cb now (.ok a) =
         (.ok a, { cb with state := CBState.closed, failure_count := 0 })) ∧
    (∀ (cb : CircuitBreaker) (now : Int) (e : E), cb.state = CBState.halfOpen →
       cb.failure_threshold ≤ cb.failure_count →
       (CircuitBreaker.callBody (A := A) cb now (.error e)).1 = .raised e ∧
       (CircuitBreaker.callBody (A := A) cb now (.error e)).2.state = CBState.open) := by
  refine ⟨fun cb hr => cb_reachable_invariant hr, ?_, ?_, ?_, ?_, ?_, ?_, ?_⟩
  · rintro ⟨F, T, c, lft, st⟩ now a hst
    simp only at hst
    subst hst
    simp [CircuitBreaker.call, CircuitBreaker.callBody]
  · rintro ⟨F, T, c, lft, st⟩ now e hst
    simp only at hst
    subst hst
    simp only [CircuitBreaker.call, CircuitBreaker.callBody]
    split_ifs with h <;> simp [h]
  · rintro ⟨F, T, c, lft, st⟩ now tf outcome hst hlft hlt
    simp only at hst hlft hlt
    subst hst
    subst hlft
    have hreset : CircuitBreaker.should_attempt_reset
        ⟨F, T, c, some tf, CBState.open⟩ now = false := by
      simp [CircuitBreaker.should_attempt_reset]
      omega
    simp [CircuitBreaker.call, hreset]
  · rintro ⟨F, T, c, lft, st⟩ now tf a hst hlft hge
    simp only at hst hlft hge
    subst hst
    subst hlft
    have hreset : CircuitBreaker.should_attempt_reset
        ⟨F, T, c, some tf, CBState.open⟩ now = true := by
      simp [CircuitBreaker.should_attempt_reset]
      omega
    simp [CircuitBreaker.call, hreset, CircuitBreaker.callBody]
  · rintro ⟨F, T, c, lft, st⟩ now tf e hst hlft hge hF
    simp only at hst hlft hF hge
    subst hst
    subst hlft
    have hreset : CircuitBreaker.should_attempt_reset
        ⟨F, T, c, some tf, CBState.open⟩ now = true := by
      simp [CircuitBreaker.should_attempt_reset]
      omega
    have hF1 : F ≤ c + 1 := Nat.le_succ_of_le hF
    simp [CircuitBreaker.call, hreset, CircuitBreaker.callBody, hF1]
  · rintro ⟨F, T, c, lft, st⟩ now a hst
    simp only at hst
    subst hst
    simp [CircuitBreaker.callBody]
  · rintro ⟨F, T, c, lft, st⟩ now e hst hF
    simp only at hst hF
    subst hst
    have hF1 : F ≤ c + 1 := Nat.le_succ_of_le hF
    simp [CircuitBreaker.callBody, hF1]

/-- Witness for C1 at concrete inputs: threshold 2, timeout 60; a success in
Closed is transparent; an Open breaker (2 failures at time 0) rejects at
time 30, closes on a successful trial at time 60, and re-opens on a failing
trial at time 60. -/
theorem circuit_breaker_transitions_witness :
    CircuitBreaker.call (E := String) (CircuitBreaker.init 2 60) 0 (.ok (5 : Nat)) =
      (.ok 5, CircuitBreaker.init 2 60) ∧
    CircuitBreaker.call (A := Nat) (⟨2, 60, 2, some 0, .open⟩ : CircuitBreaker) 30
        (.error "e") = (.rejectedOpen, ⟨2, 60, 2, some 0, .open⟩) ∧
    CircuitBreaker.call (E := String) (⟨2, 60, 2, some 0, .open⟩ : CircuitBreaker) 60
        (.ok (5 : Nat)) = (.ok 5, ⟨2, 60, 0, some 0, .closed⟩) ∧
    (CircuitBreaker.call (A := Nat) (⟨2, 60, 2, some 0, .open⟩ : CircuitBreaker) 60
        (.error "e")).2.state = CBState.open :=
  ⟨circuit_breaker_transitions.2.1 (CircuitBreaker.init 2 60) 0 5 rfl,
   circuit_breaker_transitions.2.2.2.1 ⟨2, 60, 2, some 0, .open⟩ 30 0 (.error "e")
     rfl rfl (by decide),
   circuit_breaker_transitions.2.2.2.2.1 ⟨2, 60, 2, some 0, .open⟩ 60 0 5
     rfl rfl (by decide),
   (circuit_breaker_transitions.2.2.2.2.2.1 ⟨2, 60, 2, some 0, .open⟩ 60 0 "e"
     rfl rfl (by decide) (by decide)).2⟩

end ErrorRecovery
